import Mathlib

/-!
Shallow embedding of the contact-book program (src/addresbook.py).

The core is: field validators (Phone, Birthday), the contact Record,
the AddressBook (an insertion-ordered map from name to record, mirroring
a Python dict), and the `birthdays` scheduler.

Modelling conventions:
* Python strings are Lean `String`s over the ASCII range; `str.isdigit`
  is modelled as "non-empty and every character is an ASCII decimal digit".
* `datetime.date` is modelled by the `Date` structure together with the
  proleptic-Gregorian ordinal (`toOrdinal`, Python `date.toordinal`),
  weekday (`weekday`, Monday = 0) and validity (`validDate`,
  Python `_check_date_fields` with MINYEAR = 1, MAXYEAR = 9999).
* Methods that mutate a record and may raise are embedded as functions
  returning the post-state paired with `Except String Unit`: on an error
  the returned post-state is the state at the moment the exception was
  raised, so partial mutation would be observable.
* `date.replace(year=...)`, which raises `ValueError` on an invalid
  result (e.g. Feb 29 mapped to a non-leap year), is `replaceYear`,
  returning `Option Date`; the scheduler turns `none` into the
  propagated error, as the Python exception propagates out of the loop.
-/

/-- A calendar date, as Python `datetime.date`: year, month, day. -/
structure Date where
  year : Nat
  month : Nat
  day : Nat
deriving DecidableEq, Repr

/-- Gregorian leap-year test, as Python `calendar`/`datetime._is_leap`. -/
def isLeap (y : Nat) : Bool :=
  y % 4 == 0 && (y % 100 != 0 || y % 400 == 0)

/-- Days in a month, as Python `datetime._days_in_month`. -/
def daysInMonth (y m : Nat) : Nat :=
  if m == 2 then (if isLeap y then 29 else 28)
  else if m == 4 || m == 6 || m == 9 || m == 11 then 30
  else 31

/-- Python `datetime._check_date_fields`: MINYEAR ≤ year ≤ MAXYEAR,
1 ≤ month ≤ 12, 1 ≤ day ≤ days in month. -/
def validDate (d : Date) : Bool :=
  1 ≤ d.year && d.year ≤ 9999 && 1 ≤ d.month && d.month ≤ 12 &&
    1 ≤ d.day && d.day ≤ daysInMonth d.year d.month

/-- Python `datetime._days_before_year`. -/
def daysBeforeYear (y : Nat) : Nat :=
  let x := y - 1
  x * 365 + x / 4 - x / 100 + x / 400

/-- Python `datetime._days_before_month`. -/
def daysBeforeMonth (y m : Nat) : Nat :=
  (List.range (m - 1)).foldl (fun acc i => acc + daysInMonth y (i + 1)) 0

/-- Python `date.toordinal`: day 1 is 0001-01-01. -/
def toOrdinal (d : Date) : Nat :=
  daysBeforeYear d.year + daysBeforeMonth d.year d.month + d.day

/-- Python `date.weekday`: Monday = 0, ..., Sunday = 6. -/
def weekday (d : Date) : Nat :=
  (toOrdinal d + 6) % 7

/-- Python `date.__lt__`: lexicographic on (year, month, day). -/
def dateLt (a b : Date) : Bool :=
  a.year < b.year ||
    (a.year == b.year &&
      (a.month < b.month || (a.month == b.month && a.day < b.day)))

/-- The calendar successor of a date. -/
def nextDay (d : Date) : Date :=
  if d.day < daysInMonth d.year d.month then { d with day := d.day + 1 }
  else if d.month < 12 then { year := d.year, month := d.month + 1, day := 1 }
  else { year := d.year + 1, month := 1, day := 1 }

/-- Python `date + timedelta(days=n)` for n ≥ 0, via repeated successor. -/
def addDays : Date → Nat → Date
  | d, 0 => d
  | d, n + 1 => addDays (nextDay d) n

/-- Zero-pad a number to two digits (strftime `%d` / `%m`). -/
def pad2 (n : Nat) : String :=
  if n < 10 then "0" ++ toString n else toString n

/-- Zero-pad a number to four digits (strftime `%Y`). -/
def pad4 (n : Nat) : String :=
  if n < 10 then "000" ++ toString n
  else if n < 100 then "00" ++ toString n
  else if n < 1000 then "0" ++ toString n
  else toString n

/-- Python `date.strftime("%Y.%m.%d")`, used by the scheduler output. -/
def formatYMD (d : Date) : String :=
  pad4 d.year ++ "." ++ pad2 d.month ++ "." ++ pad2 d.day

/-- Python `date.strftime("%d.%m.%Y")`, used by `Birthday.__str__`. -/
def formatDMY (d : Date) : String :=
  pad2 d.day ++ "." ++ pad2 d.month ++ "." ++ pad4 d.year

/-- Python `date.replace(year=y)`: rebuild the date with a new year,
re-checking the fields; `none` models the raised `ValueError`
("day is out of range for month", e.g. Feb 29 in a non-leap year). -/
def replaceYear (d : Date) (y : Nat) : Option Date :=
  if validDate { d with year := y } then some { d with year := y }
  else none

/-- Python `str.isdigit` restricted to the ASCII range: non-empty and
every character a decimal digit. -/
def pyIsdigit (s : String) : Bool :=
  !s.data.isEmpty && s.data.all Char.isDigit

/-- `Phone.__init__` (src/addresbook.py:24-28): accept the raw string iff
it has length 10 and `isdigit`; otherwise raise `ValueError`. The stored
`value` is the raw string itself (rendered back verbatim by `__str__`). -/
def Phone.create (value : String) : Except String String :=
  if value.length != 10 || !pyIsdigit value then
    Except.error "Phone number must be 10 digits"
  else
    Except.ok value

/-- The decimal value of a digit string (Python `int` on a matched
field), most significant digit first. -/
def digitsVal (l : List Char) : Nat :=
  l.foldl (fun acc c => acc * 10 + (c.toNat - 48)) 0

/-- One numeric field of `strptime`, patterns `%d` / `%m`: one or two
ASCII digits whose value is between 1 and `hi`
(regexes `3[01]|[12]\d|0[1-9]|[1-9]` and `1[0-2]|0[1-9]|[1-9]`). -/
def parseNumField (l : List Char) (hi : Nat) : Option Nat :=
  if (l.length == 1 || l.length == 2) && l.all Char.isDigit then
    if 1 ≤ digitsVal l && digitsVal l ≤ hi then some (digitsVal l)
    else none
  else none

/-- The `%Y` field of `strptime`: exactly four ASCII digits. -/
def parseYearField (l : List Char) : Option Nat :=
  if l.length == 4 && l.all Char.isDigit then some (digitsVal l)
  else none

/-- Split a character list at the literal dots of the format string. -/
def splitDots : List Char → List (List Char)
  | [] => [[]]
  | c :: rest =>
      let groups := splitDots rest
      if c == '.' then [] :: groups
      else
        match groups with
        | [] => [[c]]
        | g :: gs => (c :: g) :: gs

/-- Python `datetime.strptime(s, "%d.%m.%Y")`, field-matching stage: the
whole string must be day `.` month `.` year with the field patterns
above. Since every field pattern is dot-free, the regex match (with
backtracking) succeeds exactly when the string splits at its dots into
three parts matching the three field patterns. -/
def strptimeDMY (s : String) : Option Date :=
  match splitDots s.data with
  | [ds, ms, ys] => do
      let d ← parseNumField ds 31
      let m ← parseNumField ms 12
      let y ← parseYearField ys
      some { year := y, month := m, day := d }
  | _ => none

/-- `Birthday.__init__` (src/addresbook.py:30-35): parse via
`strptime("%d.%m.%Y")`; the subsequent `datetime` construction re-checks
the calendar fields (raising e.g. on Feb 31); any `ValueError` is mapped
to the fixed message. -/
def Birthday.create (value : String) : Except String Date :=
  match strptimeDMY value with
  | some dt =>
      if validDate dt then Except.ok dt
      else Except.error "Invalid date format. Use DD.MM.YYYY"
  | none => Except.error "Invalid date format. Use DD.MM.YYYY"

/-- A contact record (src/addresbook.py:40-44): name, ordered phone list
(each phone is its stored raw value), optional birthday. -/
structure Record where
  name : String
  phones : List String
  birthday : Option Date
deriving DecidableEq, Repr

/-- `Record.__init__`: fresh record with no phones and no birthday. -/
def Record.create (name : String) : Record :=
  { name := name, phones := [], birthday := none }

/-- `Record.add_phone` (src/addresbook.py:46-47): validate via
`Phone.__init__`, then append. On error the record is unchanged (the
exception is raised before the append). -/
def Record.add_phone (r : Record) (number : String) :
    Record × Except String Unit :=
  match Phone.create number with
  | Except.error e => (r, Except.error e)
  | Except.ok p => ({ r with phones := r.phones ++ [p] }, Except.ok ())

/-- The filtering loop of `Record.remove_phone` (src/addresbook.py:50-54):
keep exactly the phones whose value differs from `number`. -/
def removeKept (number : String) : List String → List String
  | [] => []
  | p :: rest =>
      if p != number then p :: removeKept number rest
      else removeKept number rest

/-- `Record.remove_phone` (src/addresbook.py:49-54): rebuild the phone
list keeping only non-matching phones; never raises. -/
def Record.remove_phone (r : Record) (number : String) : Record :=
  { r with phones := removeKept number r.phones }

/-- The replacement loop of `Record.edit_phone` (src/addresbook.py:63-66):
overwrite the first phone equal to `old_number` and stop (`break`). -/
def replaceFirst (old_number new_number : String) :
    List String → List String
  | [] => []
  | p :: rest =>
      if p == old_number then new_number :: rest
      else p :: replaceFirst old_number new_number rest

/-- `Record.edit_phone` (src/addresbook.py:56-66): raise if no phone
equals `old_number`; raise if `new_number` is not 10 digits; else
replace the first match in place. Both checks precede any mutation. -/
def Record.edit_phone (r : Record) (old_number new_number : String) :
    Record × Except String Unit :=
  if !(r.phones.any (fun p => p == old_number)) then
    (r, Except.error "Old phone number is not exist")
  else if new_number.length != 10 || !pyIsdigit new_number then
    (r, Except.error "New phone number must be 10 digits")
  else
    ({ r with phones := replaceFirst old_number new_number r.phones },
      Except.ok ())

/-- `Record.find_phone` (src/addresbook.py:68-72): first phone equal to
`number`, else `None`. -/
def Record.find_phone (r : Record) (number : String) : Option String :=
  r.phones.find? (fun p => p == number)

/-- `Record.add_birthday` (src/addresbook.py:74-78): store the parsed
birthday iff none is set, else raise. -/
def Record.add_birthday (r : Record) (value : String) :
    Record × Except String Unit :=
  match r.birthday with
  | none =>
      match Birthday.create value with
      | Except.ok d => ({ r with birthday := some d }, Except.ok ())
      | Except.error e => (r, Except.error e)
  | some _ =>
      (r, Except.error "Only one birthday is allowed per record.")

/-- `Record.__str__` (src/addresbook.py:80-83). -/
def Record.render (r : Record) : String :=
  let phones := String.intercalate "; " r.phones
  let birthday_str :=
    match r.birthday with
    | some b => ", Birthday: " ++ formatDMY b
    | none => ""
  "Contact name: " ++ r.name ++ ", phones: " ++ phones ++ birthday_str

/-- `AddressBook` (src/addresbook.py:85): a `UserDict`; its `data` is an
insertion-ordered map from name to record, modelled as an association
list in insertion order (a Python dict updates a present key in place
and appends an absent key at the end). -/
structure AddressBook where
  data : List (String × Record)
deriving DecidableEq, Repr

/-- `dict.__setitem__` on an insertion-ordered association list: update
in place if the key is present, else append. -/
def dictSet (l : List (String × Record)) (k : String) (v : Record) :
    List (String × Record) :=
  match l with
  | [] => [(k, v)]
  | (k1, v1) :: rest =>
      if k1 == k then (k1, v) :: rest
      else (k1, v1) :: dictSet rest k v

/-- `AddressBook.add_record` (src/addresbook.py:86-87):
`self.data[record.name.value] = record`. -/
def AddressBook.add_record (book : AddressBook) (record : Record) :
    AddressBook :=
  { data := dictSet book.data record.name record }

/-- `AddressBook.find` (src/addresbook.py:89-90): `self.data.get(name)`. -/
def AddressBook.find (book : AddressBook) (name : String) : Option Record :=
  (book.data.find? (fun p => p.1 == name)).map Prod.snd

/-- `AddressBook.delete` (src/addresbook.py:92-94): delete the binding if
the key is present, else do nothing. -/
def AddressBook.delete (book : AddressBook) (name : String) : AddressBook :=
  if book.data.any (fun p => p.1 == name) then
    { data := book.data.filter (fun p => p.1 != name) }
  else book

/-- `self.data.values()`: the records in iteration (insertion) order. -/
def AddressBook.values (book : AddressBook) : List Record :=
  book.data.map Prod.snd

/-- The keys of the book in iteration (insertion) order. -/
def AddressBook.keys (book : AddressBook) : List String :=
  book.data.map Prod.fst

/-- The weekend adjustment of the scheduler (src/addresbook.py:154-156):
a Saturday or Sunday congratulation date moves to the next Monday. -/
def congratulationDate (d : Date) : Date :=
  if weekday d ≥ 5 then addDays d ((7 - weekday d) % 7)
  else d

/-- The body of the scheduler loop (src/addresbook.py:145-161) for one
record: `ok none` = skipped, `ok (some entry)` = included,
`error` = the `ValueError` raised by `date.replace` propagates. -/
def processRecord (today : Date) (record : Record) :
    Except String (Option (String × String)) :=
  match record.birthday with
  | none => Except.ok none
  | some birthday =>
      match replaceYear birthday today.year with
      | none => Except.error "day is out of range for month"
      | some b1 =>
          match (if dateLt b1 today then replaceYear b1 (b1.year + 1)
                 else some b1) with
          | none => Except.error "day is out of range for month"
          | some birthday_this_year =>
              let days_to_birthday : Int :=
                (toOrdinal birthday_this_year : Int) - (toOrdinal today : Int)
              if 0 ≤ days_to_birthday ∧ days_to_birthday ≤ 7 then
                Except.ok (some (record.name,
                  formatYMD (congratulationDate birthday_this_year)))
              else
                Except.ok none

/-- The scheduler loop over a list of records, in order; the first raised
exception aborts the whole computation. -/
def birthdaysList (today : Date) : List Record →
    Except String (List (String × String))
  | [] => Except.ok []
  | r :: rest =>
      match processRecord today r with
      | Except.error e => Except.error e
      | Except.ok none => birthdaysList today rest
      | Except.ok (some entry) =>
          match birthdaysList today rest with
          | Except.error e => Except.error e
          | Except.ok l => Except.ok (entry :: l)

/-- `birthdays` (src/addresbook.py:140-167), core computation: the list
of (name, congratulation date) entries over the book's records in
directory iteration order, for a given `today`. -/
def birthdays (book : AddressBook) (today : Date) :
    Except String (List (String × String)) :=
  birthdaysList today (AddressBook.values book)

/-- The entry emitted for a candidate date `bty`: included iff the day
difference from today is between 0 and 7 inclusive, pairing the name
with the weekend-adjusted date formatted `YYYY.MM.DD`. -/
def entryIfClose (today : Date) (name : String) (bty : Date) :
    Option (String × String) :=
  if 0 ≤ (toOrdinal bty : Int) - (toOrdinal today : Int) ∧
      (toOrdinal bty : Int) - (toOrdinal today : Int) ≤ 7 then
    some (name, formatYMD (congratulationDate bty))
  else none

/-- The membership criterion of claim C1, stated as in the spec: take the
birthday, replace its year with this year, roll forward one year when
that date is strictly before today, and include the record iff the day
difference from today is between 0 and 7; the emitted entry pairs the
name with the weekend-adjusted date formatted `YYYY.MM.DD`. -/
def includeEntry (today : Date) (r : Record) : Option (String × String) :=
  match r.birthday with
  | none => none
  | some bd =>
      if dateLt { bd with year := today.year } today then
        entryIfClose today r.name { bd with year := today.year + 1 }
      else
        entryIfClose today r.name { bd with year := today.year }

/-- A record whose birthday (if any) is a valid date other than Feb 29:
on such records `date.replace(year=...)` can never raise. -/
def safeBirthday (r : Record) : Bool :=
  match r.birthday with
  | none => true
  | some bd => validDate bd && !(bd.month == 2 && bd.day == 29)

/-! ### Concrete scenario data used by several theorems -/

/-- The record "Ann" with birthday 12.06.1990, built through the
embedded operations. -/
def recAnn : Record := ((Record.create "Ann").add_birthday "12.06.1990").1

/-- The record "Bob" with birthday 15.06.1995. -/
def recBob : Record := ((Record.create "Bob").add_birthday "15.06.1995").1

/-- The record "Cid" with birthday 01.01.1990. -/
def recCid : Record := ((Record.create "Cid").add_birthday "01.01.1990").1

/-- The scheduler scenario book: Ann, Bob, Cid, inserted in that order. -/
def scenarioBook : AddressBook :=
  (((AddressBook.mk []).add_record recAnn).add_record recBob).add_record recCid

/-- A record whose birthday is Feb 29 of a leap year. -/
def recLeap : Record := ((Record.create "Dee").add_birthday "29.02.2020").1

/-- A book holding only the Feb-29 record. -/
def leapBook : AddressBook := (AddressBook.mk []).add_record recLeap

/-! ### Validators -/

/-- The regex `^\d{10}$` of claim C3, read as a predicate: length ten
and every character between `0` and `9`. -/
def phonePattern (s : String) : Prop :=
  s.length = 10 ∧ ∀ c ∈ s.data, '0' ≤ c ∧ c ≤ '9'

instance (s : String) : Decidable (phonePattern s) := by
  unfold phonePattern; infer_instance

lemma char_isDigit_iff (c : Char) : c.isDigit = true ↔ ('0' ≤ c ∧ c ≤ '9') := by
  unfold Char.isDigit
  rw [Bool.and_eq_true, decide_eq_true_eq, decide_eq_true_eq]
  exact Iff.rfl

lemma phone_guard_iff (s : String) :
    (s.length != 10 || !pyIsdigit s) = false ↔ phonePattern s := by
  obtain ⟨l⟩ := s
  unfold pyIsdigit phonePattern
  rw [Bool.or_eq_false_iff]
  simp only [bne_eq_false_iff_eq, Bool.not_eq_false', Bool.and_eq_true,
    List.isEmpty_eq_false, List.all_eq_true, char_isDigit_iff]
  constructor
  · rintro ⟨h1, _, h3⟩
    exact ⟨h1, h3⟩
  · rintro ⟨h1, h2⟩
    refine ⟨h1, ?_, h2⟩
    cases l with
    | nil => simp [String.length] at h1
    | cons a t => rfl

/-- C3: Phone construction succeeds — returning the raw string unchanged
as the stored (and re-rendered) value — exactly on the strings of length
ten whose characters are all decimal digits, and fails with the
invalid-phone error on every other string. -/
theorem phone_create_matches_digit_pattern (s : String) :
    (Phone.create s = Except.ok s ↔ phonePattern s) ∧
    (¬ phonePattern s →
      Phone.create s = Except.error "Phone number must be 10 digits") := by
  unfold Phone.create
  by_cases hp : phonePattern s
  · rw [(phone_guard_iff s).mpr hp]
    simp [hp]
  · have hg : (s.length != 10 || !pyIsdigit s) = true := by
      cases hh : (s.length != 10 || !pyIsdigit s) with
      | false => exact absurd ((phone_guard_iff s).mp hh) hp
      | true => rfl
    rw [hg]
    simp [hp]

/-- Witness for C3 at the concrete input "0123456789". -/
theorem phone_create_matches_digit_pattern_witness :
    Phone.create "0123456789" = Except.ok "0123456789" :=
  (phone_create_matches_digit_pattern "0123456789").1.mpr (by decide)

/-- C4 counterexample: the claim says `"1.1.2020"` fails with
InvalidDate because day and month must be zero-padded; in fact
`strptime`'s `%d`/`%m` accept one-digit fields, so construction
succeeds, parsing the string as January 1, 2020. -/
theorem birthday_create_accepts_unpadded :
    Birthday.create "1.1.2020" =
      Except.ok { year := 2020, month := 1, day := 1 } := by rfl

/-- C4 amended: Birthday construction parses day.month.year with one- or
two-digit day and month (leading zeros optional) and four-digit year,
rejecting impossible calendar dates: "29.02.2024" succeeds,
"31.02.2024" fails with the invalid-date error, and "1.1.2020"
succeeds as January 1, 2020. -/
theorem birthday_create_strptime_cases :
    Birthday.create "29.02.2024" =
        Except.ok { year := 2024, month := 2, day := 29 } ∧
    Birthday.create "31.02.2024" =
        Except.error "Invalid date format. Use DD.MM.YYYY" ∧
    Birthday.create "1.1.2020" =
        Except.ok { year := 2020, month := 1, day := 1 } :=
  ⟨rfl, rfl, rfl⟩

/-! ### Record operations -/

lemma replaceFirst_append (old new : String) (pre post : List String)
    (h : old ∉ pre) :
    replaceFirst old new (pre ++ old :: post) = pre ++ new :: post := by
  induction pre with
  | nil => simp [replaceFirst]
  | cons a t ih =>
      rw [List.mem_cons, not_or] at h
      have hne : (a == old) = false := by
        simp only [beq_eq_false_iff_ne]
        exact fun he => h.1 he.symm
      simp only [List.cons_append, replaceFirst, hne, Bool.false_eq_true,
        if_false, List.append_eq]
      rw [ih h.2]

/-- C5: on a record without a birthday, add_birthday with a string that
parses stores the parsed date; any further add_birthday on the resulting
record fails with the birthday-already-set error and returns the record
with the first value unchanged. -/
theorem add_birthday_set_once (r : Record) (s1 : String) (d : Date)
    (h0 : r.birthday = none) (hp : Birthday.create s1 = Except.ok d) :
    r.add_birthday s1 = ({ r with birthday := some d }, Except.ok ()) ∧
    ∀ s2 : String,
      ({ r with birthday := some d } : Record).add_birthday s2 =
        ({ r with birthday := some d },
          Except.error "Only one birthday is allowed per record.") := by
  unfold Record.add_birthday
  rw [h0, hp]
  exact ⟨rfl, fun s2 => rfl⟩

/-- Witness for C5: set Ann's birthday, then observe the stored value. -/
theorem add_birthday_set_once_witness :
    (Record.create "Ann").add_birthday "12.06.1990" =
      ({ Record.create "Ann" with
          birthday := some { year := 1990, month := 6, day := 12 } },
        Except.ok ()) :=
  (add_birthday_set_once (Record.create "Ann") "12.06.1990"
    { year := 1990, month := 6, day := 12 } rfl (by rfl)).1

/-- C6: edit_phone fails with the old-phone-not-found error when no
phone equals the old number; with the old number present it fails with
the invalid-phone error when the new number is not ten digits; and on
success it replaces exactly the first occurrence of the old number,
leaving later duplicates untouched. -/
theorem edit_phone_first_match_semantics
    (r : Record) (old_number new_number : String) :
    (old_number ∉ r.phones →
      r.edit_phone old_number new_number =
        (r, Except.error "Old phone number is not exist")) ∧
    (old_number ∈ r.phones → ¬ phonePattern new_number →
      r.edit_phone old_number new_number =
        (r, Except.error "New phone number must be 10 digits")) ∧
    (∀ pre post, r.phones = pre ++ old_number :: post → old_number ∉ pre →
      phonePattern new_number →
      r.edit_phone old_number new_number =
        ({ r with phones := pre ++ new_number :: post }, Except.ok ())) := by
  refine ⟨?_, ?_, ?_⟩
  · intro hnot
    have hany : (r.phones.any (fun p => p == old_number)) = false := by
      simp [List.any_eq_true]
      intro x hx he
      exact hnot (he ▸ hx)
    unfold Record.edit_phone
    rw [hany]
    rfl
  · intro hmem hpat
    have hany : (r.phones.any (fun p => p == old_number)) = true := by
      simp [List.any_eq_true]
      exact hmem
    have hg : (new_number.length != 10 || !pyIsdigit new_number) = true := by
      cases hh : (new_number.length != 10 || !pyIsdigit new_number) with
      | false => exact absurd ((phone_guard_iff new_number).mp hh) hpat
      | true => rfl
    unfold Record.edit_phone
    rw [hany, hg]
    rfl
  · intro pre post hsplit hnp hpat
    have hmem : old_number ∈ r.phones := by
      rw [hsplit]; exact List.mem_append_right pre (List.mem_cons_self _ _)
    have hany : (r.phones.any (fun p => p == old_number)) = true := by
      simp [List.any_eq_true]
      exact hmem
    have hg : (new_number.length != 10 || !pyIsdigit new_number) = false :=
      (phone_guard_iff new_number).mpr hpat
    unfold Record.edit_phone
    rw [hany, hg, hsplit,
      replaceFirst_append old_number new_number pre post hnp]
    rfl

/-- Witness for C6: replace the only phone of a one-phone record. -/
theorem edit_phone_first_match_semantics_witness :
    (Record.mk "Ann" ["1111111111"] none).edit_phone
        "1111111111" "2222222222" =
      ({ Record.mk "Ann" ["1111111111"] none with
          phones := [] ++ "2222222222" :: [] }, Except.ok ()) :=
  (edit_phone_first_match_semantics
    (Record.mk "Ann" ["1111111111"] none) "1111111111" "2222222222").2.2
    [] [] rfl (by simp) (by decide)

lemma removeKept_eq_filter (number : String) (l : List String) :
    removeKept number l = l.filter (fun p => p != number) := by
  induction l with
  | nil => rfl
  | cons a t ih =>
      simp only [removeKept, List.filter_cons]
      cases h : (a != number) with
      | true => simp [h, ih]
      | false => simp [h, ih]

/-- C8: remove_phone deletes every phone equal to the argument while
preserving the order of the rest, and is a no-op (not an error) when
nothing matches; delete is a no-op when the name is absent and removes
the binding when present; find and find_phone return `none` on a failed
lookup instead of failing. -/
theorem remove_and_lookup_total_semantics :
    (∀ (r : Record) (number : String),
      r.remove_phone number =
        { r with phones := r.phones.filter (fun p => p != number) }) ∧
    (∀ (r : Record) (number : String), number ∉ r.phones →
      r.remove_phone number = r) ∧
    (∀ (book : AddressBook) (name : String), book.find name = none →
      book.delete name = book) ∧
    (∀ (book : AddressBook) (name : String),
      (book.delete name).find name = none) ∧
    (∀ (book : AddressBook) (name : String),
      (∀ p ∈ book.data, p.1 ≠ name) → book.find name = none) ∧
    (∀ (r : Record) (number : String), number ∉ r.phones →
      r.find_phone number = none) := by
  have hfind_none : ∀ (book : AddressBook) (name : String),
      (∀ p ∈ book.data, p.1 ≠ name) → book.find name = none := by
    intro book name h
    unfold AddressBook.find
    rw [List.find?_eq_none.mpr]
    · rfl
    · intro p hp
      simp [h p hp]
  refine ⟨?_, ?_, ?_, ?_, hfind_none, ?_⟩
  · intro r number
    unfold Record.remove_phone
    rw [removeKept_eq_filter]
  · intro r number h
    unfold Record.remove_phone
    rw [removeKept_eq_filter, List.filter_eq_self.mpr]
    · intro a ha
      simp only [bne_iff_ne]
      exact fun he => h (he ▸ ha)
  · intro book name h
    unfold AddressBook.delete
    rw [if_neg]
    intro hany
    rw [List.any_eq_true] at hany
    obtain ⟨p, hp, hpeq⟩ := hany
    unfold AddressBook.find at h
    cases hf : book.data.find? (fun p => p.1 == name) with
    | none =>
        have := List.find?_eq_none.mp hf p hp
        exact this hpeq
    | some q => rw [hf] at h; simp at h
  · intro book name
    unfold AddressBook.delete
    cases hany : book.data.any (fun p => p.1 == name) with
    | false =>
        simp only [Bool.false_eq_true, if_false]
        apply hfind_none
        intro p hp he
        rw [List.any_eq_false] at hany
        exact hany p hp (by simp [he])
    | true =>
        simp only [if_true]
        apply hfind_none
        intro p hp
        simp only [List.mem_filter, bne_iff_ne] at hp
        exact hp.2
  · intro r number h
    unfold Record.find_phone
    rw [List.find?_eq_none.mpr]
    intro p hp
    simp only [beq_iff_eq]
    exact fun he => h (he ▸ hp)

/-- Witness for C8: removing an absent number is a no-op. -/
theorem remove_and_lookup_total_semantics_witness :
    (Record.mk "Ann" ["1111111111"] none).remove_phone "9999999999" =
      Record.mk "Ann" ["1111111111"] none :=
  remove_and_lookup_total_semantics.2.1
    (Record.mk "Ann" ["1111111111"] none) "9999999999" (by decide)

/-- C9: a failing add_phone (invalid raw number) returns the
invalid-phone error with the record unchanged, and every failing
add_phone, edit_phone or add_birthday leaves the record exactly as it
was — the validation precedes any mutation. -/
theorem failed_mutators_leave_record_unchanged :
    (∀ (r : Record) (number : String), ¬ phonePattern number →
      r.add_phone number =
        (r, Except.error "Phone number must be 10 digits")) ∧
    (∀ (r : Record) (number : String) (res : Record) (e : String),
      r.add_phone number = (res, Except.error e) → res = r) ∧
    (∀ (r : Record) (o n : String) (res : Record) (e : String),
      r.edit_phone o n = (res, Except.error e) → res = r) ∧
    (∀ (r : Record) (s : String) (res : Record) (e : String),
      r.add_birthday s = (res, Except.error e) → res = r) := by
  refine ⟨?_, ?_, ?_, ?_⟩
  · intro r number hpat
    have hg : (number.length != 10 || !pyIsdigit number) = true := by
      cases hh : (number.length != 10 || !pyIsdigit number) with
      | false => exact absurd ((phone_guard_iff number).mp hh) hpat
      | true => rfl
    unfold Record.add_phone Phone.create
    rw [hg]
    rfl
  · intro r number res e h
    unfold Record.add_phone at h
    cases hc : Phone.create number with
    | error e2 =>
        rw [hc] at h
        exact (Prod.mk.injEq .. ▸ h).1.symm
    | ok p =>
        rw [hc] at h
        simp at h
  · intro r o n res e h
    unfold Record.edit_phone at h
    split at h
    · exact (Prod.mk.injEq .. ▸ h).1.symm
    · split at h
      · exact (Prod.mk.injEq .. ▸ h).1.symm
      · simp at h
  · intro r s res e h
    unfold Record.add_birthday at h
    cases hb : r.birthday with
    | none =>
        rw [hb] at h
        cases hc : Birthday.create s with
        | ok d => rw [hc] at h; simp at h
        | error e2 =>
            rw [hc] at h
            exact (Prod.mk.injEq .. ▸ h).1.symm
    | some b =>
        rw [hb] at h
        exact (Prod.mk.injEq .. ▸ h).1.symm

/-- Witness for C9: adding a three-character phone leaves the record
as it was. -/
theorem failed_mutators_leave_record_unchanged_witness :
    (Record.mk "Ann" [] none).add_phone "123" =
      (Record.mk "Ann" [] none, Except.error "Phone number must be 10 digits") :=
  failed_mutators_leave_record_unchanged.1
    (Record.mk "Ann" [] none) "123" (by decide)

/-! ### Directory operations -/

lemma dictSet_dictSet (l : List (String × Record)) (k : String) (v1 v2 : Record) :
    dictSet (dictSet l k v1) k v2 = dictSet l k v2 := by
  induction l with
  | nil => simp [dictSet]
  | cons p t ih =>
      obtain ⟨k1, r1⟩ := p
      cases hk : (k1 == k) with
      | true => simp [dictSet, hk]
      | false => simp [dictSet, hk, ih]

lemma keys_dictSet (l : List (String × Record)) (k : String) (v : Record) :
    (dictSet l k v).map Prod.fst =
      if k ∈ l.map Prod.fst then l.map Prod.fst
      else l.map Prod.fst ++ [k] := by
  induction l with
  | nil => simp [dictSet]
  | cons p t ih =>
      obtain ⟨k1, r1⟩ := p
      cases hk : (k1 == k) with
      | true =>
          have hkk : k1 = k := by simpa using hk
          simp [dictSet, hk, hkk]
      | false =>
          have hkk : k ≠ k1 := by
            intro he
            rw [he] at hk
            simp at hk
          simp only [dictSet, hk, Bool.false_eq_true, if_false,
            List.map_cons, ih]
          by_cases hm : k ∈ t.map Prod.fst
          · rw [if_pos hm, if_pos (List.mem_cons_of_mem k1 hm)]
          · rw [if_neg hm, if_neg ?_]
            · simp
            · intro hc
              rcases List.mem_cons.mp hc with he | hmm
              · exact hkk he
              · exact hm hmm

/-- C7: adding a second record under the same name makes the book equal
to the book with only the second record added — the first record's
phones and birthday are gone; the key sequence (hence iteration order)
keeps a present key at its first-insertion position and appends a fresh
key at the end; and the book keeps at most one record per name. -/
theorem add_record_last_write_wins_order :
    (∀ (book : AddressBook) (r1 r2 : Record), r1.name = r2.name →
      (book.add_record r1).add_record r2 = book.add_record r2) ∧
    (∀ (book : AddressBook) (r : Record),
      (book.add_record r).keys =
        if r.name ∈ book.keys then book.keys
        else book.keys ++ [r.name]) ∧
    (∀ (book : AddressBook) (r : Record), book.keys.Nodup →
      (book.add_record r).keys.Nodup) := by
  have hkeys : ∀ (book : AddressBook) (r : Record),
      (book.add_record r).keys =
        if r.name ∈ book.keys then book.keys
        else book.keys ++ [r.name] := by
    intro book r
    unfold AddressBook.add_record AddressBook.keys
    exact keys_dictSet book.data r.name r
  refine ⟨?_, hkeys, ?_⟩
  · intro book r1 r2 hname
    unfold AddressBook.add_record
    rw [hname]
    exact congrArg AddressBook.mk (dictSet_dictSet book.data r2.name r1 r2)
  · intro book r hnd
    rw [hkeys]
    by_cases hm : r.name ∈ book.keys
    · rw [if_pos hm]; exact hnd
    · rw [if_neg hm, List.nodup_append]
      exact ⟨hnd, List.nodup_singleton _, by
        intro a ha hb
        rw [List.mem_singleton] at hb
        exact hm (hb ▸ ha)⟩

/-- Witness for C7: two same-name insertions equal one. -/
theorem add_record_last_write_wins_order_witness :
    ((AddressBook.mk []).add_record
        (Record.mk "Ann" ["1111111111"] none)).add_record
        (Record.mk "Ann" ["2222222222"] none) =
      (AddressBook.mk []).add_record (Record.mk "Ann" ["2222222222"] none) :=
  add_record_last_write_wins_order.1 (AddressBook.mk [])
    (Record.mk "Ann" ["1111111111"] none)
    (Record.mk "Ann" ["2222222222"] none) rfl

/-- Every stored binding maps a key to a record bearing that key as its
name. -/
def keyedByName (book : AddressBook) : Prop :=
  ∀ p ∈ book.data, (Prod.snd p).name = p.1

/-- The books reachable from the empty book by add_record and delete
operations — every directory the program can actually hold. -/
inductive Reachable : AddressBook → Prop where
  | empty : Reachable (AddressBook.mk [])
  | add (book : AddressBook) (r : Record) :
      Reachable book → Reachable (book.add_record r)
  | del (book : AddressBook) (k : String) :
      Reachable book → Reachable (book.delete k)

lemma keyedByName_dictSet (l : List (String × Record)) (r : Record)
    (h : ∀ p ∈ l, (Prod.snd p).name = p.1) :
    ∀ p ∈ dictSet l r.name r, (Prod.snd p).name = p.1 := by
  induction l with
  | nil =>
      intro p hp
      simp only [dictSet, List.mem_singleton] at hp
      rw [hp]
  | cons q t ih =>
      obtain ⟨k1, r1⟩ := q
      intro p hp
      simp only [dictSet] at hp
      by_cases hk : (k1 == r.name) = true
      · rw [if_pos hk] at hp
        rcases List.mem_cons.mp hp with he | hm
        · rw [he]
          have : k1 = r.name := by simpa using hk
          rw [this]
        · exact h p (List.mem_cons_of_mem _ hm)
      · rw [if_neg hk] at hp
        rcases List.mem_cons.mp hp with he | hm
        · exact h p (he ▸ List.mem_cons_self _ _)
        · exact ih (fun q hq => h q (List.mem_cons_of_mem _ hq)) p hm

lemma reachable_keyedByName (book : AddressBook) (h : Reachable book) :
    keyedByName book := by
  induction h with
  | empty => intro p hp; exact absurd hp (List.not_mem_nil p)
  | add book r _ ih =>
      unfold AddressBook.add_record
      exact keyedByName_dictSet book.data r ih
  | del book k _ ih =>
      unfold AddressBook.delete
      split
      · intro p hp
        exact ih p (List.mem_of_mem_filter hp)
      · exact ih

/-- C10: after any sequence of add_record and delete operations starting
from the empty directory, find returns only records whose name equals
the looked-up key — add_record always inserts under the record's own
name and no operation rebinds a record to a different key. -/
theorem find_returns_record_keyed_by_name (book : AddressBook)
    (k : String) (r : Record) (hr : Reachable book)
    (hf : book.find k = some r) : r.name = k := by
  unfold AddressBook.find at hf
  cases he : book.data.find? (fun p => p.1 == k) with
  | none => rw [he] at hf; simp at hf
  | some q =>
      rw [he] at hf
      have hf2 : q.2 = r := by simpa using hf
      have hqk := List.find?_some he
      have hmem : q ∈ book.data := List.mem_of_find?_eq_some he
      have := reachable_keyedByName book hr q hmem
      rw [← hf2, this]
      exact (beq_iff_eq ..).mp hqk

/-- Witness for C10: on the one-record reachable book, find "Ann" yields
a record named "Ann". -/
theorem find_returns_record_keyed_by_name_witness :
    (Record.create "Ann").name = "Ann" :=
  find_returns_record_keyed_by_name
    ((AddressBook.mk []).add_record (Record.create "Ann")) "Ann"
    (Record.create "Ann")
    (Reachable.add (AddressBook.mk []) (Record.create "Ann") Reachable.empty)
    rfl

/-! ### Scheduler -/

/-- C2: the weekend adjustment moves a Saturday congratulation date
(weekday 5) forward 2 days and a Sunday one (weekday 6) forward 1 day,
to the next Monday, and leaves weekdays unchanged; and on the scenario
book with today = Monday 2024.06.10, Ann (birthday 12.06.1990) is
listed unshifted as "2024.06.12", Bob (15.06.1995, a Saturday) is
shifted to "2024.06.17", and Cid (01.01.1990) is excluded, each entry
pairing the unmodified name with the adjusted date in YYYY.MM.DD. -/
theorem weekend_adjustment_and_scenario :
    (∀ d : Date, weekday d = 5 → congratulationDate d = addDays d 2) ∧
    (∀ d : Date, weekday d = 6 → congratulationDate d = addDays d 1) ∧
    (∀ d : Date, weekday d < 5 → congratulationDate d = d) ∧
    birthdays scenarioBook { year := 2024, month := 6, day := 10 } =
      Except.ok [("Ann", "2024.06.12"), ("Bob", "2024.06.17")] := by
  refine ⟨?_, ?_, ?_, by rfl⟩
  · intro d h
    unfold congratulationDate
    rw [h]
    norm_num
  · intro d h
    unfold congratulationDate
    rw [h]
    norm_num
  · intro d h
    unfold congratulationDate
    rw [if_neg]
    omega

/-- Witness for C2 at Saturday, June 15, 2024. -/
theorem weekend_adjustment_and_scenario_witness :
    congratulationDate { year := 2024, month := 6, day := 15 } =
      addDays { year := 2024, month := 6, day := 15 } 2 :=
  weekend_adjustment_and_scenario.1 { year := 2024, month := 6, day := 15 }
    (by decide)

lemma daysInMonth_eq_of_ne_two (y y2 m : Nat) (h : m ≠ 2) :
    daysInMonth y m = daysInMonth y2 m := by
  have hb : (m == 2) = false := beq_eq_false_iff_ne.mpr h
  simp [daysInMonth, hb]

lemma daysInMonth_two_ge (y : Nat) : 28 ≤ daysInMonth y 2 := by
  unfold daysInMonth
  cases isLeap y <;> simp

lemma daysInMonth_two_le (y : Nat) : daysInMonth y 2 ≤ 29 := by
  unfold daysInMonth
  cases isLeap y <;> simp

lemma validDate_unpack (d : Date) (h : validDate d = true) :
    1 ≤ d.year ∧ d.year ≤ 9999 ∧ 1 ≤ d.month ∧ d.month ≤ 12 ∧
      1 ≤ d.day ∧ d.day ≤ daysInMonth d.year d.month := by
  unfold validDate at h
  simp only [Bool.and_eq_true, decide_eq_true_eq] at h
  tauto

lemma validDate_replace (d : Date) (y : Nat) (hv : validDate d = true)
    (hnot : ¬(d.month = 2 ∧ d.day = 29)) (h1 : 1 ≤ y) (h2 : y ≤ 9999) :
    validDate { d with year := y } = true := by
  obtain ⟨_, _, hm1, hm2, hd1, hd2⟩ := validDate_unpack d hv
  unfold validDate
  dsimp only
  simp only [Bool.and_eq_true, decide_eq_true_eq]
  refine ⟨⟨⟨⟨⟨h1, h2⟩, hm1⟩, hm2⟩, hd1⟩, ?_⟩
  by_cases hm : d.month = 2
  · have hd29 : d.day ≠ 29 := fun hd => hnot ⟨hm, hd⟩
    rw [hm] at hd2 ⊢
    have a1 := daysInMonth_two_le d.year
    have a2 := daysInMonth_two_ge y
    omega
  · rw [daysInMonth_eq_of_ne_two y d.year d.month hm]
    exact hd2

lemma replaceYear_safe (d : Date) (y : Nat) (hv : validDate d = true)
    (hnot : ¬(d.month = 2 ∧ d.day = 29)) (h1 : 1 ≤ y) (h2 : y ≤ 9999) :
    replaceYear d y = some { d with year := y } := by
  unfold replaceYear
  rw [validDate_replace d y hv hnot h1 h2]
  rfl

lemma processRecord_safe (today : Date) (r : Record)
    (ht : validDate today = true) (hy : today.year ≤ 9998)
    (hs : safeBirthday r = true) :
    processRecord today r = Except.ok (includeEntry today r) := by
  unfold processRecord includeEntry
  cases hb : r.birthday with
  | none => rfl
  | some bd =>
      unfold safeBirthday at hs
      rw [hb] at hs
      simp only [Bool.and_eq_true, Bool.not_eq_true', beq_iff_eq,
        Bool.and_eq_false_iff, bne_iff_ne, decide_eq_true_eq] at hs
      obtain ⟨hbv, hbnot⟩ := hs
      have hbnot2 : ¬(bd.month = 2 ∧ bd.day = 29) := by
        intro hc
        rcases hbnot with h1 | h2
        · exact absurd hc.1 (by simpa using h1)
        · exact absurd hc.2 (by simpa using h2)
      obtain ⟨hty1, hty2, _⟩ := validDate_unpack today ht
      dsimp only
      rw [replaceYear_safe bd today.year hbv hbnot2 hty1 hty2]
      dsimp only
      have hb0v : validDate { bd with year := today.year } = true :=
        validDate_replace bd today.year hbv hbnot2 hty1 hty2
      cases hlt : dateLt { bd with year := today.year } today with
      | false =>
          simp only [Bool.false_eq_true, if_neg, if_false]
          unfold entryIfClose
          split <;> rfl
      | true =>
          simp only [if_true]
          rw [replaceYear_safe { bd with year := today.year }
            (today.year + 1) hb0v (by exact hbnot2) (by omega) (by omega)]
          dsimp only
          unfold entryIfClose
          split <;> rfl

lemma birthdaysList_safe (today : Date) (ht : validDate today = true)
    (hy : today.year ≤ 9998) :
    ∀ l : List Record, (∀ r ∈ l, safeBirthday r = true) →
      birthdaysList today l = Except.ok (l.filterMap (includeEntry today)) := by
  intro l
  induction l with
  | nil => intro _; rfl
  | cons r t ih =>
      intro hl
      have hp := processRecord_safe today r ht hy (hl r (List.mem_cons_self r t))
      have ih2 := ih (fun x hx => hl x (List.mem_cons_of_mem r hx))
      cases he : includeEntry today r with
      | none =>
          rw [he] at hp
          simp only [birthdaysList, hp, ih2, List.filterMap_cons, he]
      | some e =>
          rw [he] at hp
          simp only [birthdaysList, hp, ih2, List.filterMap_cons, he]

/-- C1 amended: for every directory and every valid `today` (with
`today.year ≤ 9998, so the roll-forward year stays in range) whose
stored birthdays are valid dates other than Feb 29, the scheduler
returns — without error — exactly the records whose birthday, after
replacing its year with today's year and rolling forward one year when
that date is strictly before today, lies 0 to 7 days from today, in
directory iteration order (`filterMap` keeps order and yields `[]` when
nothing qualifies). The unamended claim fails on Feb-29 birthdays,
where the operation propagates an error instead of returning a
sequence (`birthdays_error_on_feb29`). -/
theorem birthdays_window_characterization (book : AddressBook) (today : Date)
    (ht : validDate today = true) (hy : today.year ≤ 9998)
    (hs : book.values.all safeBirthday = true) :
    birthdays book today =
      Except.ok (book.values.filterMap (includeEntry today)) := by
  unfold birthdays
  exact birthdaysList_safe today ht hy book.values
    (by rwa [List.all_eq_true] at hs)

/-- Witness for C1 on the three-record scenario book. -/
theorem birthdays_window_characterization_witness :
    birthdays scenarioBook { year := 2024, month := 6, day := 10 } =
      Except.ok (scenarioBook.values.filterMap
        (includeEntry { year := 2024, month := 6, day := 10 })) :=
  birthdays_window_characterization scenarioBook
    { year := 2024, month := 6, day := 10 } (by decide) (by decide) (by decide)

/-- C1 counterexample: a record whose birthday is Feb 29 makes the
scheduler propagate the `ValueError` of `date.replace` when today's
year is not a leap year — the result is an error, not a sequence, even
though no record qualifies for the window. -/
theorem birthdays_error_on_feb29 :
    birthdays leapBook { year := 2023, month := 6, day := 10 } =
      Except.error "day is out of range for month" := by rfl
